import Mathlib

/-!
Verification of the scroll-animation script (src/script.js) of the
ai-landing-page repository, over a shallow embedding of its DOM-mutating
operations.

The DOM is modelled as a store of element records indexed by node id,
together with a document-order list of nodes, an ordered child list per
node, and the body element's class list.  Inline style properties that the
script touches are explicit fields; the numeric `transitionDelay` (always
written as a number of seconds) is kept as an exact rational.  The
platform's visibility-observation facility (IntersectionObserver) is
modelled by the `observed` registration list: a notification batch carries
one entry per currently registered element, and `unobserve` removes the
element from the list.  A thrown exception (TypeError on a null parent
dereference) is modelled as a `false` success flag; mutations performed
before the throw are kept, as in the browser.
-/

namespace ScrollScript

/-- One DOM element: its class list, id attribute, the inline style
properties the script mutates, and its parent node (none when detached). -/
structure Elem where
  classes : List String
  idAttr : Option String
  transitionDelay : Option ℚ
  transform : String
  boxShadow : String
  opacity : String
  display : String
  parent : Option Nat
deriving Repr, DecidableEq

/-- A fresh element with no classes and empty inline style. -/
def defaultElem : Elem :=
  { classes := [], idAttr := none, transitionDelay := none, transform := "",
    boxShadow := "", opacity := "", display := "", parent := none }

/-- The page document: element store by node id, document order of all
nodes, ordered children of each node, and the body's class list. -/
structure Dom where
  elems : Nat → Elem
  docOrder : List Nat
  children : Nat → List Nat
  bodyClasses : List String

/-- Replace the record of node `n`. -/
def setElem (d : Dom) (n : Nat) (e : Elem) : Dom :=
  { d with elems := fun m => if m = n then e else d.elems m }

/-- classList.add: append the token unless already present. -/
def classListAdd (d : Dom) (n : Nat) (c : String) : Dom :=
  let e := d.elems n
  if c ∈ e.classes then d else setElem d n { e with classes := e.classes ++ [c] }

/-- document.querySelectorAll for a class selector: all nodes carrying the
class, in document order. -/
def querySelectorAll (d : Dom) (c : String) : List Nat :=
  d.docOrder.filter (fun n => decide (c ∈ (d.elems n).classes))

/-- document.querySelector for a class selector: first node carrying the
class, in document order. -/
def querySelector (d : Dom) (c : String) : Option Nat :=
  d.docOrder.find? (fun n => decide (c ∈ (d.elems n).classes))

/-- document.getElementById: first node in document order whose id
attribute equals the given string. -/
def getElementById (d : Dom) (s : String) : Option Nat :=
  d.docOrder.find? (fun n => (d.elems n).idAttr == some s)

/-- JavaScript Array.prototype.indexOf: index of the first occurrence, or
-1 when absent. -/
def jsIndexOf (items : List Nat) (x : Nat) : Int :=
  match items.findIdx? (fun m => m == x) with
  | some i => (i : Int)
  | none => -1

/-- The whole script state: the document plus the observer's registration
list (the elements currently observed, in registration order). -/
structure SysState where
  dom : Dom
  observed : List Nat

/-- Embeds script.js lines 53-60 (addStaggeredAnimation).  It dereferences
element.parentElement without a null check: when the parent is absent the
access `parentList.children` throws a TypeError, modelled as `none`.
Otherwise the transition delay is set to `index * 0.2` seconds, where
`index` is Array.indexOf of the element in its parent's child list at call
time. -/
def addStaggeredAnimation (d : Dom) (n : Nat) : Option Dom :=
  match (d.elems n).parent with
  | none => none
  | some p =>
    let items := d.children p
    let index := jsIndexOf items n
    some (setElem d n { d.elems n with transitionDelay := some ((index : ℚ) * (2 / 10)) })

/-- Test of script.js lines 31-32: the element carries the class
problem-item or solution-item. -/
def isListItem (d : Dom) (n : Nat) : Bool :=
  decide ("problem-item" ∈ (d.elems n).classes) ||
    decide ("solution-item" ∈ (d.elems n).classes)

/-- observer.unobserve: drop the element from the registration list. -/
def unobserve (s : SysState) (n : Nat) : SysState :=
  { s with observed := s.observed.filter (fun m => m != n) }

/-- Embeds the body of the forEach in handleIntersection (script.js lines
25-39) for one entry `(target, isIntersecting)`.  Returns the new state
and a success flag; `false` means the callback threw (which in the
browser aborts the rest of the batch but keeps the mutations already
performed).  When the entry is intersecting: add the class `animate`,
then for list items run addStaggeredAnimation, then unobserve the target;
a non-intersecting entry is left untouched. -/
def processEntry (s : SysState) (entry : Nat × Bool) : SysState × Bool :=
  if entry.2 then
    let d1 := classListAdd s.dom entry.1 "animate"
    if isListItem d1 entry.1 then
      match addStaggeredAnimation d1 entry.1 with
      | some d2 => (unobserve { dom := d2, observed := s.observed } entry.1, true)
      | none => ({ dom := d1, observed := s.observed }, false)
    else (unobserve { dom := d1, observed := s.observed } entry.1, true)
  else (s, true)

/-- Embeds handleIntersection (script.js lines 24-40): process the batch
entries in order; a throw in one entry aborts the remaining entries of
the batch (entries.forEach propagates the exception). -/
def runBatch : SysState → List (Nat × Bool) → SysState × Bool
  | s, [] => (s, true)
  | s, e :: rest =>
    let r := processEntry s e
    if r.2 then runBatch r.1 rest else (r.1, false)

/-- One visibility-change notification of the observation facility for a
given visibility predicate: the platform delivers one entry per currently
registered element, and handleIntersection processes the batch. -/
def observerNotify (s : SysState) (vis : Nat → Bool) : SysState × Bool :=
  runBatch s (s.observed.map (fun n => (n, vis n)))

/-- A sequence of scroll positions: each one produces a notification batch.
An uncaught throw in one batch does not stop later notifications. -/
def runScrolls : SysState → List (Nat → Bool) → SysState
  | s, [] => s
  | s, v :: vs => runScrolls (observerNotify s v).1 vs

/-- Helper for initServiceBlocksAnimation: the forEach body with its
running index — set the transition delay to `index * 0.2` seconds and
register the block with the observer. -/
def initBlocksAux : SysState → List Nat → Nat → SysState
  | s, [], _ => s
  | s, n :: rest, i =>
    initBlocksAux
      { dom := setElem s.dom n { s.dom.elems n with transitionDelay := some ((i : ℚ) * (2 / 10)) },
        observed := s.observed ++ [n] } rest (i + 1)

/-- Embeds initServiceBlocksAnimation (script.js lines 80-87): for each
element matching `.service-block`, in NodeList (document) order, set its
transition delay from its index in that NodeList and observe it. -/
def initServiceBlocksAnimation (s : SysState) : SysState :=
  initBlocksAux s (querySelectorAll s.dom "service-block") 0

/-- Result of one click event on a hash link: whether preventDefault ran,
and the scrollIntoView invocations (target, behavior, block) it issued. -/
structure ClickResult where
  defaultPrevented : Bool
  scrolls : List (Nat × String × String)
deriving Repr, DecidableEq

/-- Embeds the click handler of initSmoothScrolling (script.js lines
130-142), installed on every anchor whose href starts with '#':
e.preventDefault() runs first, unconditionally; then the href's fragment
(href minus the leading '#') is looked up by id, and only on a match is
scrollIntoView invoked, with behavior smooth and block start. -/
def hashLinkClick (d : Dom) (href : String) : ClickResult :=
  let r0 : ClickResult := { defaultPrevented := true, scrolls := [] }
  let targetId := href.drop 1
  match getElementById d targetId with
  | some t => { r0 with scrolls := r0.scrolls ++ [(t, "smooth", "start")] }
  | none => r0

/-- Embeds the mouseenter handler of initHoverEffects (script.js lines
154-157). -/
def mouseenterServiceBlock (d : Dom) (n : Nat) : Dom :=
  setElem d n
    { d.elems n with
      transform := "translateY(-5px)"
      boxShadow := "0 10px 30px rgba(0, 0, 0, 0.1)" }

/-- Embeds the mouseleave handler of initHoverEffects (script.js lines
159-162). -/
def mouseleaveServiceBlock (d : Dom) (n : Nat) : Dom :=
  setElem d n { d.elems n with transform := "translateY(0)", boxShadow := "none" }

/-- Embeds the window load listener (script.js lines 232-243).  Returns
the document after the synchronous part (body class `loaded` added and,
when a `.loader` element is found, its opacity set to "0") and the
document after the 300ms deferred step (the loader's display set to
"none"). -/
def windowLoad (d : Dom) : Dom × Dom :=
  let d1 : Dom :=
    { d with bodyClasses :=
        if "loaded" ∈ d.bodyClasses then d.bodyClasses else d.bodyClasses ++ ["loaded"] }
  match querySelector d1 "loader" with
  | some l =>
    let d2 := setElem d1 l { d1.elems l with opacity := "0" }
    let d3 := setElem d2 l { d2.elems l with display := "none" }
    (d2, d3)
  | none => (d1, d1)

/-- Embeds throttle (script.js lines 187-197) run over a list of call
times: each call clears the pending timer and schedules a new one `wait`
ms ahead; a pending timer whose deadline has been reached before the next
call fires (executes the wrapped function).  Output: the times at which
the wrapped function executes, the trailing pending timer included. -/
def runThrottle (wait : Nat) : List Nat → Option Nat → List Nat
  | [], none => []
  | [], some d => [d]
  | t :: ts, none => runThrottle wait ts (some (t + wait))
  | t :: ts, some d =>
    if d ≤ t then d :: runThrottle wait ts (some (t + wait))
    else runThrottle wait ts (some (t + wait))

/-- Modelled from the spec words, for comparison with runThrottle: a
trailing-edge throttle executes once per burst, at `c + wait` for exactly
those calls `c` after which no further call arrives before `c + wait`. -/
def expectedFires (wait : Nat) : List Nat → List Nat
  | [] => []
  | [c] => [c + wait]
  | c :: c2 :: rest =>
    if c + wait ≤ c2 then (c + wait) :: expectedFires wait (c2 :: rest)
    else expectedFires wait (c2 :: rest)

/-- The wait passed to throttle by the resize listener (script.js line 226). -/
def resizeWait : Nat := 250

/-! ### Concrete documents used by witnesses and counterexamples -/

/-- A document whose single element (node 0) is already animated. -/
def exDom1 : Dom :=
  { elems := fun n => if n = 0 then { defaultElem with classes := ["animate"] } else defaultElem,
    docOrder := [0], children := fun _ => [], bodyClasses := [] }

def exState1 : SysState := { dom := exDom1, observed := [0] }

/-- A document with one plain (non-list) section, node 1, under observation. -/
def exDom2 : Dom :=
  { elems := fun n =>
      if n = 1 then { defaultElem with classes := ["mission-content"] } else defaultElem,
    docOrder := [1], children := fun _ => [], bodyClasses := [] }

def exState2 : SysState := { dom := exDom2, observed := [1] }

/-- A detached solution-item: node 5 carries the class solution-item but
has no parent, and is under observation. -/
def cexDom3 : Dom :=
  { elems := fun n =>
      if n = 5 then { defaultElem with classes := ["solution-item"] } else defaultElem,
    docOrder := [5], children := fun _ => [], bodyClasses := [] }

def cexState3 : SysState := { dom := cexDom3, observed := [5] }

/-- A solution list: node 0 is the parent with children [1, 2], both
solution-items. -/
def exDom4 : Dom :=
  { elems := fun n =>
      if n = 1 then { defaultElem with classes := ["solution-item"], parent := some 0 }
      else if n = 2 then { defaultElem with classes := ["solution-item"], parent := some 0 }
      else defaultElem,
    docOrder := [0, 1, 2], children := fun n => if n = 0 then [1, 2] else [],
    bodyClasses := [] }

def exState4 : SysState := { dom := exDom4, observed := [1, 2] }

/-- A document with an element whose id attribute is "contact" (node 3). -/
def exDom5 : Dom :=
  { elems := fun n =>
      if n = 3 then { defaultElem with idAttr := some "contact" } else defaultElem,
    docOrder := [3], children := fun _ => [], bodyClasses := [] }

/-- A parent (node 0) whose children are a filler paragraph (node 1)
followed by a service block (node 2): the service block's NodeList index
is 0 while its sibling position is 1. -/
def cexDom6 : Dom :=
  { elems := fun n =>
      if n = 1 then { defaultElem with classes := ["filler"], parent := some 0 }
      else if n = 2 then { defaultElem with classes := ["service-block"], parent := some 0 }
      else defaultElem,
    docOrder := [0, 1, 2], children := fun n => if n = 0 then [1, 2] else [],
    bodyClasses := [] }

def cexState6 : SysState := { dom := cexDom6, observed := [] }

/-- A service block (node 3) whose inline style starts empty. -/
def cexDom7 : Dom :=
  { elems := fun n =>
      if n = 3 then { defaultElem with classes := ["service-block"] } else defaultElem,
    docOrder := [3], children := fun _ => [], bodyClasses := [] }

/-- A service block (node 2) already carrying the resting hover style. -/
def exDom7 : Dom :=
  { elems := fun n =>
      if n = 2 then
        { defaultElem with
          classes := ["service-block"]
          transform := "translateY(0)"
          boxShadow := "none" }
      else defaultElem,
    docOrder := [2], children := fun _ => [], bodyClasses := [] }

/-- A document with a loader element (node 4). -/
def exDom8 : Dom :=
  { elems := fun n =>
      if n = 4 then { defaultElem with classes := ["loader"] } else defaultElem,
    docOrder := [4], children := fun _ => [], bodyClasses := [] }

/-! ### Basic lemmas about the DOM primitives -/

theorem setElem_elems (d : Dom) (n : Nat) (e : Elem) (m : Nat) :
    (setElem d n e).elems m = if m = n then e else d.elems m := rfl

theorem setElem_children (d : Dom) (n : Nat) (e : Elem) :
    (setElem d n e).children = d.children := rfl

theorem classListAdd_children (d : Dom) (n : Nat) (c : String) :
    (classListAdd d n c).children = d.children := by
  by_cases hc : c ∈ (d.elems n).classes <;> simp [classListAdd, hc, setElem]

theorem classListAdd_elems_ne (d : Dom) (n : Nat) (c : String) (m : Nat) (h : m ≠ n) :
    (classListAdd d n c).elems m = d.elems m := by
  by_cases hc : c ∈ (d.elems n).classes <;> simp [classListAdd, hc, setElem, h]

theorem classListAdd_parent (d : Dom) (n : Nat) (c : String) (m : Nat) :
    ((classListAdd d n c).elems m).parent = (d.elems m).parent := by
  by_cases hm : m = n
  · subst hm
    by_cases hc : c ∈ (d.elems m).classes <;> simp [classListAdd, hc, setElem]
  · rw [classListAdd_elems_ne d n c m hm]

theorem mem_classListAdd (d : Dom) (n : Nat) (c x : String) (m : Nat) :
    x ∈ ((classListAdd d n c).elems m).classes ↔
      x ∈ (d.elems m).classes ∨ (m = n ∧ x = c) := by
  by_cases hm : m = n
  · subst hm
    by_cases hc : c ∈ (d.elems m).classes
    · simp only [classListAdd, hc, if_pos, true_and]
      constructor
      · exact fun h2 => Or.inl h2
      · rintro (h2 | h2)
        · exact h2
        · exact h2 ▸ hc
    · simp [classListAdd, hc, setElem]
  · simp [classListAdd_elems_ne d n c m hm, hm]

theorem classListAdd_mem_mono (d : Dom) (n : Nat) (c x : String) (m : Nat)
    (h : x ∈ (d.elems m).classes) : x ∈ ((classListAdd d n c).elems m).classes :=
  (mem_classListAdd d n c x m).mpr (Or.inl h)

theorem isListItem_classListAdd_animate (d : Dom) (n m : Nat) :
    isListItem (classListAdd d n "animate") m = isListItem d m := by
  have h1 : ("problem-item" ∈ ((classListAdd d n "animate").elems m).classes) ↔
      "problem-item" ∈ (d.elems m).classes := by
    rw [mem_classListAdd]
    constructor
    · rintro (h | ⟨h2, h3⟩)
      · exact h
      · exact absurd h3 (by decide)
    · exact fun h => Or.inl h
  have h2 : ("solution-item" ∈ ((classListAdd d n "animate").elems m).classes) ↔
      "solution-item" ∈ (d.elems m).classes := by
    rw [mem_classListAdd]
    constructor
    · rintro (h | ⟨h3, h4⟩)
      · exact h
      · exact absurd h4 (by decide)
    · exact fun h => Or.inl h
  simp only [isListItem, h1, h2]

theorem addStaggeredAnimation_parent_none (d : Dom) (n : Nat)
    (h : (d.elems n).parent = none) : addStaggeredAnimation d n = none := by
  unfold addStaggeredAnimation
  rw [h]

theorem addStaggeredAnimation_parent_some (d : Dom) (n p : Nat)
    (h : (d.elems n).parent = some p) :
    addStaggeredAnimation d n =
      some (setElem d n
        { d.elems n with
          transitionDelay := some ((jsIndexOf (d.children p) n : ℚ) * (2 / 10)) }) := by
  unfold addStaggeredAnimation
  rw [h]

theorem addStaggeredAnimation_elems_ne (d d2 : Dom) (n m : Nat)
    (h : addStaggeredAnimation d n = some d2) (hm : m ≠ n) :
    d2.elems m = d.elems m := by
  cases hp : (d.elems n).parent with
  | none => rw [addStaggeredAnimation_parent_none d n hp] at h; cases h
  | some p =>
    rw [addStaggeredAnimation_parent_some d n p hp] at h
    injection h with h2
    rw [← h2]
    simp [setElem, hm]

theorem addStaggeredAnimation_children (d d2 : Dom) (n : Nat)
    (h : addStaggeredAnimation d n = some d2) : d2.children = d.children := by
  cases hp : (d.elems n).parent with
  | none => rw [addStaggeredAnimation_parent_none d n hp] at h; cases h
  | some p =>
    rw [addStaggeredAnimation_parent_some d n p hp] at h
    injection h with h2
    rw [← h2]
    rfl

theorem addStaggeredAnimation_classes (d d2 : Dom) (n : Nat)
    (h : addStaggeredAnimation d n = some d2) (m : Nat) :
    (d2.elems m).classes = (d.elems m).classes := by
  by_cases hm : m = n
  · subst hm
    cases hp : (d.elems m).parent with
    | none => rw [addStaggeredAnimation_parent_none d m hp] at h; cases h
    | some p =>
      rw [addStaggeredAnimation_parent_some d m p hp] at h
      injection h with h2
      rw [← h2]
      simp [setElem]
  · rw [addStaggeredAnimation_elems_ne d d2 n m h hm]

theorem addStaggeredAnimation_parent_field (d d2 : Dom) (n : Nat)
    (h : addStaggeredAnimation d n = some d2) (m : Nat) :
    (d2.elems m).parent = (d.elems m).parent := by
  by_cases hm : m = n
  · subst hm
    cases hp : (d.elems m).parent with
    | none => rw [addStaggeredAnimation_parent_none d m hp] at h; cases h
    | some p =>
      rw [addStaggeredAnimation_parent_some d m p hp] at h
      injection h with h2
      rw [← h2]
      simp [setElem, hp]
  · rw [addStaggeredAnimation_elems_ne d d2 n m h hm]

theorem unobserve_dom (s : SysState) (n : Nat) : (unobserve s n).dom = s.dom := rfl

theorem not_mem_unobserve_self (s : SysState) (n : Nat) : n ∉ (unobserve s n).observed := by
  simp [unobserve]

theorem unobserve_observed_mono (s : SysState) (n m : Nat) (h : m ∉ s.observed) :
    m ∉ (unobserve s n).observed := by
  intro h2
  exact h (List.mem_of_mem_filter h2)

/-! ### Lemmas about entry processing and notification batches -/

theorem processEntry_not_intersecting (s : SysState) (n : Nat) :
    processEntry s (n, false) = (s, true) := rfl

theorem processEntry_elems_ne (s : SysState) (e : Nat × Bool) (m : Nat) (h : m ≠ e.1) :
    ((processEntry s e).1).dom.elems m = s.dom.elems m := by
  obtain ⟨n, b⟩ := e
  simp only at h
  cases b
  · rfl
  · by_cases hl : isListItem (classListAdd s.dom n "animate") n = true
    · cases hs : addStaggeredAnimation (classListAdd s.dom n "animate") n with
      | none =>
        simp only [processEntry, hl, hs, if_true, if_pos]
        exact classListAdd_elems_ne s.dom n "animate" m h
      | some d2 =>
        simp only [processEntry, hl, hs, if_true, if_pos, unobserve_dom]
        rw [addStaggeredAnimation_elems_ne _ d2 n m hs h]
        exact classListAdd_elems_ne s.dom n "animate" m h
    · simp only [processEntry, hl, if_true, if_neg, unobserve_dom]
      simp only [Bool.not_eq_true] at hl
      simp only [hl, Bool.false_eq_true, if_false, unobserve_dom]
      exact classListAdd_elems_ne s.dom n "animate" m h

theorem processEntry_mem_mono (s : SysState) (e : Nat × Bool) (m : Nat) (x : String)
    (h : x ∈ (s.dom.elems m).classes) :
    x ∈ (((processEntry s e).1).dom.elems m).classes := by
  obtain ⟨n, b⟩ := e
  cases b
  · exact h
  · have h1 : x ∈ ((classListAdd s.dom n "animate").elems m).classes :=
      classListAdd_mem_mono s.dom n "animate" x m h
    by_cases hl : isListItem (classListAdd s.dom n "animate") n = true
    · cases hs : addStaggeredAnimation (classListAdd s.dom n "animate") n with
      | none => simpa only [processEntry, hl, hs, if_true] using h1
      | some d2 =>
        simp only [processEntry, hl, hs, if_true, unobserve_dom]
        rw [addStaggeredAnimation_classes _ d2 n hs m]
        exact h1
    · simp only [Bool.not_eq_true] at hl
      simpa only [processEntry, hl, Bool.false_eq_true, if_true, if_false,
        unobserve_dom] using h1

theorem processEntry_observed_mono (s : SysState) (e : Nat × Bool) (m : Nat)
    (h : m ∉ s.observed) : m ∉ ((processEntry s e).1).observed := by
  obtain ⟨n, b⟩ := e
  cases b
  · exact h
  · by_cases hl : isListItem (classListAdd s.dom n "animate") n = true
    · cases hs : addStaggeredAnimation (classListAdd s.dom n "animate") n with
      | none => simpa only [processEntry, hl, hs, if_true] using h
      | some d2 =>
        simp only [processEntry, hl, hs, if_true]
        exact unobserve_observed_mono _ n m h
    · simp only [Bool.not_eq_true] at hl
      simp only [processEntry, hl, Bool.false_eq_true, if_true, if_false]
      exact unobserve_observed_mono _ n m h

theorem processEntry_children (s : SysState) (e : Nat × Bool) :
    ((processEntry s e).1).dom.children = s.dom.children := by
  obtain ⟨n, b⟩ := e
  cases b
  · rfl
  · by_cases hl : isListItem (classListAdd s.dom n "animate") n = true
    · cases hs : addStaggeredAnimation (classListAdd s.dom n "animate") n with
      | none =>
        simp only [processEntry, hl, hs, if_true]
        exact classListAdd_children s.dom n "animate"
      | some d2 =>
        simp only [processEntry, hl, hs, if_true, unobserve_dom]
        rw [addStaggeredAnimation_children _ d2 n hs]
        exact classListAdd_children s.dom n "animate"
    · simp only [Bool.not_eq_true] at hl
      simp only [processEntry, hl, Bool.false_eq_true, if_true, if_false, unobserve_dom]
      exact classListAdd_children s.dom n "animate"

theorem processEntry_parent (s : SysState) (e : Nat × Bool) (m : Nat) :
    (((processEntry s e).1).dom.elems m).parent = (s.dom.elems m).parent := by
  obtain ⟨n, b⟩ := e
  cases b
  · rfl
  · by_cases hl : isListItem (classListAdd s.dom n "animate") n = true
    · cases hs : addStaggeredAnimation (classListAdd s.dom n "animate") n with
      | none =>
        simp only [processEntry, hl, hs, if_true]
        exact classListAdd_parent s.dom n "animate" m
      | some d2 =>
        simp only [processEntry, hl, hs, if_true, unobserve_dom]
        rw [addStaggeredAnimation_parent_field _ d2 n hs m]
        exact classListAdd_parent s.dom n "animate" m
    · simp only [Bool.not_eq_true] at hl
      simp only [processEntry, hl, Bool.false_eq_true, if_true, if_false, unobserve_dom]
      exact classListAdd_parent s.dom n "animate" m

theorem runBatch_mem_mono (s : SysState) (es : List (Nat × Bool)) (m : Nat) (x : String)
    (h : x ∈ (s.dom.elems m).classes) :
    x ∈ (((runBatch s es).1).dom.elems m).classes := by
  induction es generalizing s with
  | nil => exact h
  | cons e rest ih =>
    simp only [runBatch]
    by_cases hr : (processEntry s e).2 = true
    · simp only [hr, if_true]
      exact ih _ (processEntry_mem_mono s e m x h)
    · simp only [Bool.not_eq_true] at hr
      simp only [hr, Bool.false_eq_true, if_false]
      exact processEntry_mem_mono s e m x h

theorem runBatch_observed_mono (s : SysState) (es : List (Nat × Bool)) (m : Nat)
    (h : m ∉ s.observed) : m ∉ ((runBatch s es).1).observed := by
  induction es generalizing s with
  | nil => exact h
  | cons e rest ih =>
    simp only [runBatch]
    by_cases hr : (processEntry s e).2 = true
    · simp only [hr, if_true]
      exact ih _ (processEntry_observed_mono s e m h)
    · simp only [Bool.not_eq_true] at hr
      simp only [hr, Bool.false_eq_true, if_false]
      exact processEntry_observed_mono s e m h

theorem runBatch_elems_not_target (s : SysState) (es : List (Nat × Bool)) (m : Nat)
    (h : ∀ e ∈ es, e.1 ≠ m) :
    ((runBatch s es).1).dom.elems m = s.dom.elems m := by
  induction es generalizing s with
  | nil => rfl
  | cons e rest ih =>
    have he : m ≠ e.1 := fun h2 => h e (List.mem_cons_self e rest) h2.symm
    simp only [runBatch]
    by_cases hr : (processEntry s e).2 = true
    · simp only [hr, if_true]
      rw [ih _ (fun e2 h2 => h e2 (List.mem_cons_of_mem e h2))]
      exact processEntry_elems_ne s e m he
    · simp only [Bool.not_eq_true] at hr
      simp only [hr, Bool.false_eq_true, if_false]
      exact processEntry_elems_ne s e m he

theorem runBatch_children (s : SysState) (es : List (Nat × Bool)) :
    ((runBatch s es).1).dom.children = s.dom.children := by
  induction es generalizing s with
  | nil => rfl
  | cons e rest ih =>
    simp only [runBatch]
    by_cases hr : (processEntry s e).2 = true
    · simp only [hr, if_true]
      rw [ih _]
      exact processEntry_children s e
    · simp only [Bool.not_eq_true] at hr
      simp only [hr, Bool.false_eq_true, if_false]
      exact processEntry_children s e

theorem runBatch_parent (s : SysState) (es : List (Nat × Bool)) (m : Nat) :
    (((runBatch s es).1).dom.elems m).parent = (s.dom.elems m).parent := by
  induction es generalizing s with
  | nil => rfl
  | cons e rest ih =>
    simp only [runBatch]
    by_cases hr : (processEntry s e).2 = true
    · simp only [hr, if_true]
      rw [ih _]
      exact processEntry_parent s e m
    · simp only [Bool.not_eq_true] at hr
      simp only [hr, Bool.false_eq_true, if_false]
      exact processEntry_parent s e m

theorem observerNotify_not_observed (s : SysState) (v : Nat → Bool) (m : Nat)
    (h : m ∉ s.observed) :
    ((observerNotify s v).1).dom.elems m = s.dom.elems m ∧
      m ∉ ((observerNotify s v).1).observed := by
  constructor
  · apply runBatch_elems_not_target
    intro e he
    obtain ⟨q, hq, he2⟩ := List.mem_map.mp he
    rw [← he2]
    intro h2
    exact h (h2 ▸ hq)
  · exact runBatch_observed_mono s _ m h

theorem runScrolls_mem_mono (s : SysState) (vs : List (Nat → Bool)) (m : Nat) (x : String)
    (h : x ∈ (s.dom.elems m).classes) :
    x ∈ ((runScrolls s vs).dom.elems m).classes := by
  induction vs generalizing s with
  | nil => exact h
  | cons v rest ih =>
    simp only [runScrolls]
    exact ih _ (runBatch_mem_mono s _ m x h)

theorem runScrolls_not_observed (s : SysState) (vs : List (Nat → Bool)) (m : Nat)
    (h : m ∉ s.observed) :
    (runScrolls s vs).dom.elems m = s.dom.elems m := by
  induction vs generalizing s with
  | nil => rfl
  | cons v rest ih =>
    obtain ⟨h1, h2⟩ := observerNotify_not_observed s v m h
    simp only [runScrolls]
    rw [ih _ h2, h1]

/-! ### Claim theorems -/

/-- C1: for every watched element and any sequence of visibility-change
notification batches, the animated flag (membership of the class
`animate`) is monotone — once present it is never removed, so along any
run it transitions at most once, from false to true, and never reverts —
and an entry in which the element is not intersecting leaves the whole
state untouched. -/
theorem animate_flag_monotone :
    (∀ (s : SysState) (vs : List (Nat → Bool)) (m : Nat),
        "animate" ∈ (s.dom.elems m).classes →
        "animate" ∈ ((runScrolls s vs).dom.elems m).classes) ∧
    (∀ (s : SysState) (n : Nat), processEntry s (n, false) = (s, true)) :=
  ⟨fun s vs m h => runScrolls_mem_mono s vs m "animate" h,
   fun s n => processEntry_not_intersecting s n⟩

/-- Witness for animate_flag_monotone: node 0 of exState1 is animated and
stays animated across a further notification. -/
theorem animate_flag_monotone_witness :
    "animate" ∈ ((runScrolls exState1 [fun _ => true]).dom.elems 0).classes :=
  animate_flag_monotone.1 exState1 [fun _ => true] 0 (by decide)

/-- C3 (amended): when processing an intersecting entry completes without a
throw — which holds whenever the element is not a list item, or has a
parent at trigger time — the element is unregistered from the observation
facility; and an element absent from the registration list receives no
entries, so later notifications never change its record. -/
theorem trigger_unobserve_effective :
    (∀ (s : SysState) (n : Nat), (processEntry s (n, true)).2 = true →
        n ∉ ((processEntry s (n, true)).1).observed) ∧
    (∀ (s : SysState) (vs : List (Nat → Bool)) (n : Nat), n ∉ s.observed →
        (runScrolls s vs).dom.elems n = s.dom.elems n) := by
  constructor
  · intro s n h
    by_cases hl : isListItem (classListAdd s.dom n "animate") n = true
    · cases hs : addStaggeredAnimation (classListAdd s.dom n "animate") n with
      | none =>
        simp only [processEntry, hl, hs, if_true] at h
        exact absurd h (by decide)
      | some d2 =>
        simp only [processEntry, hl, hs, if_true]
        exact not_mem_unobserve_self _ n
    · simp only [Bool.not_eq_true] at hl
      simp only [processEntry, hl, Bool.false_eq_true, if_true, if_false]
      exact not_mem_unobserve_self _ n
  · exact fun s vs n h => runScrolls_not_observed s vs n h

/-- Witness for trigger_unobserve_effective: the plain section node 1 of
exState2 triggers without a throw and is unregistered; the unobserved
node 7 is untouched by a notification. -/
theorem trigger_unobserve_effective_witness :
    (1 ∉ ((processEntry exState2 (1, true)).1).observed) ∧
    (runScrolls exState2 [fun _ => true]).dom.elems 7 = exState2.dom.elems 7 :=
  ⟨trigger_unobserve_effective.1 exState2 1 (by decide),
   trigger_unobserve_effective.2 exState2 [fun _ => true] 7 (by decide)⟩

/-- Counterexample to C3 as stated: after the notification in which the
detached solution-item (node 5 of cexState3) intersects, it has been
marked animated, yet it is still in the observer's registration list —
the throw inside addStaggeredAnimation skipped observer.unobserve. -/
theorem trigger_keeps_detached_item_registered_cex :
    "animate" ∈ (((observerNotify cexState3 (fun _ => true)).1).dom.elems 5).classes ∧
    5 ∈ ((observerNotify cexState3 (fun _ => true)).1).observed := by
  constructor <;> decide

/-- C4 (amended): processing a visibility entry throws exactly when the
entry is intersecting, the element is a list item, and its parent is
absent at trigger time; every other operation of the handler is guarded,
so with a parent present (or a non-list element, or a non-intersecting
entry) processing never throws. -/
theorem process_throw_iff_detached_list_item :
    (∀ (s : SysState) (n : Nat),
        (processEntry s (n, true)).2 = false ↔
          (isListItem s.dom n = true ∧ (s.dom.elems n).parent = none)) ∧
    (∀ (s : SysState) (n : Nat), (processEntry s (n, false)).2 = true) := by
  constructor
  · intro s n
    by_cases hl : isListItem s.dom n = true
    · have hl1 : isListItem (classListAdd s.dom n "animate") n = true := by
        rw [isListItem_classListAdd_animate]; exact hl
      cases hp : (s.dom.elems n).parent with
      | none =>
        have hp1 : ((classListAdd s.dom n "animate").elems n).parent = none := by
          rw [classListAdd_parent]; exact hp
        simp [processEntry, hl1, addStaggeredAnimation_parent_none _ n hp1, hl, hp]
      | some p =>
        have hp1 : ((classListAdd s.dom n "animate").elems n).parent = some p := by
          rw [classListAdd_parent]; exact hp
        simp [processEntry, hl1, addStaggeredAnimation_parent_some _ n p hp1, hl, hp]
    · have hl0 : isListItem s.dom n = false := by
        simpa using hl
      have hl1 : isListItem (classListAdd s.dom n "animate") n = false := by
        rw [isListItem_classListAdd_animate]; exact hl0
      simp [processEntry, hl1, hl0]
  · exact fun s n => rfl

/-- Counterexample to C4 as stated: node 5 of cexState3 is an intersecting
solution-item whose parent is absent at trigger time; the handler
dereferences the null parent and throws (success flag false) instead of a
silent no-op. -/
theorem detached_list_item_throw_cex :
    (processEntry cexState3 (5, true)).2 = false := by decide

/-- C2: when a list item with a parent triggers, the transition delay set
on it equals 0.2 * i seconds, with i the item's ordinal position among
its parent's child elements read at trigger time; and batch processing
never mutates the sibling structure (child lists and parent pointers), so
the index — hence each item's delay — does not depend on the order in
which the sibling items trigger. -/
theorem stagger_delay_formula :
    (∀ (s : SysState) (n p i : Nat),
        isListItem s.dom n = true →
        (s.dom.elems n).parent = some p →
        (s.dom.children p).findIdx? (fun m => m == n) = some i →
        (((processEntry s (n, true)).1).dom.elems n).transitionDelay =
          some ((i : ℚ) * (2 / 10))) ∧
    (∀ (s : SysState) (es : List (Nat × Bool)),
        ((runBatch s es).1).dom.children = s.dom.children ∧
        ∀ m, (((runBatch s es).1).dom.elems m).parent = (s.dom.elems m).parent) := by
  constructor
  · intro s n p i hl hp hi
    have hl1 : isListItem (classListAdd s.dom n "animate") n = true := by
      rw [isListItem_classListAdd_animate]; exact hl
    have hp1 : ((classListAdd s.dom n "animate").elems n).parent = some p := by
      rw [classListAdd_parent]; exact hp
    have hidx : jsIndexOf ((classListAdd s.dom n "animate").children p) n = (i : Int) := by
      rw [classListAdd_children]
      unfold jsIndexOf
      rw [hi]
    simp only [processEntry, hl1, if_true,
      addStaggeredAnimation_parent_some _ n p hp1, unobserve_dom, setElem,
      if_pos]
    rw [hidx]
    norm_num
  · intro s es
    exact ⟨runBatch_children s es, fun m => runBatch_parent s es m⟩

/-- Witness for stagger_delay_formula: node 2 of exState4 is the second
child (index 1) of its parent list and receives delay 0.2 seconds. -/
theorem stagger_delay_formula_witness :
    (((processEntry exState4 (2, true)).1).dom.elems 2).transitionDelay =
      some ((1 : ℚ) * (2 / 10)) :=
  stagger_delay_formula.1 exState4 2 0 1 (by decide) (by decide) (by decide)

/-! ### Service-block initialization lemmas -/

theorem initBlocksAux_elems_not_mem (s : SysState) (l : List Nat) (i m : Nat)
    (h : m ∉ l) : (initBlocksAux s l i).dom.elems m = s.dom.elems m := by
  induction l generalizing s i with
  | nil => rfl
  | cons a rest ih =>
    have hm : m ≠ a := fun h2 => h (h2 ▸ List.mem_cons_self a rest)
    simp only [initBlocksAux]
    rw [ih _ _ (fun h2 => h (List.mem_cons_of_mem a h2))]
    simp [setElem, hm]

theorem initBlocksAux_delay (l : List Nat) : ∀ (s : SysState) (i k n : Nat),
    l.Nodup → l[k]? = some n →
    ((initBlocksAux s l i).dom.elems n).transitionDelay =
      some (((i + k : Nat) : ℚ) * (2 / 10)) := by
  induction l with
  | nil =>
    intro s i k n hnd h
    simp at h
  | cons a rest ih =>
    intro s i k n hnd h
    rw [List.nodup_cons] at hnd
    cases k with
    | zero =>
      simp only [List.getElem?_cons_zero, Option.some.injEq] at h
      subst h
      simp only [initBlocksAux]
      rw [initBlocksAux_elems_not_mem _ _ _ _ hnd.1]
      simp [setElem]
    | succ k2 =>
      simp only [List.getElem?_cons_succ] at h
      have h3 : (i + 1) + k2 = i + (k2 + 1) := by omega
      simp only [initBlocksAux]
      rw [ih _ (i + 1) k2 n hnd.2 h, h3]

/-- C6 (amended): each service block's transition delay equals 0.2 seconds
times its index in the document-order list of `.service-block` elements
(the NodeList index the forEach supplies), not its ordinal position among
its parent's children; the two agree only when the matched blocks are
exactly their parent's children in order. -/
theorem service_block_delay_nodelist_index :
    ∀ (s : SysState) (k n : Nat),
      (querySelectorAll s.dom "service-block").Nodup →
      (querySelectorAll s.dom "service-block")[k]? = some n →
      ((initServiceBlocksAnimation s).dom.elems n).transitionDelay =
        some ((k : ℚ) * (2 / 10)) := by
  intro s k n hnd h
  have h2 := initBlocksAux_delay (querySelectorAll s.dom "service-block") s 0 k n hnd h
  simpa [initServiceBlocksAnimation] using h2

/-- Witness for service_block_delay_nodelist_index: the single matched
block (node 2 of cexState6) has NodeList index 0 and receives delay 0. -/
theorem service_block_delay_nodelist_index_witness :
    ((initServiceBlocksAnimation cexState6).dom.elems 2).transitionDelay =
      some ((0 : ℚ) * (2 / 10)) :=
  service_block_delay_nodelist_index cexState6 0 2 (by decide) (by decide)

/-- Counterexample to C6 as stated: in cexDom6 node 2 is the only service
block, so the script assigns it delay 0 * 0.2 = 0, but its ordinal
position among its parent's children is 1, and 0.2 times that sibling
position is 1/5 ≠ 0. -/
theorem service_block_delay_sibling_cex :
    ((initServiceBlocksAnimation cexState6).dom.elems 2).transitionDelay =
      some (((0 : Nat) : ℚ) * (2 / 10)) ∧
    (cexDom6.children 0).findIdx? (fun m => m == 2) = some 1 ∧
    (((0 : Nat) : ℚ) * (2 / 10)) ≠ (((1 : Nat) : ℚ) * (2 / 10)) := by
  refine ⟨by rfl, by decide, by norm_num⟩

/-- C5: a click on a same-page hash link suppresses the default navigation
jump and, when an element with the id named by the hash fragment exists,
issues exactly one smooth scroll targeting that element; when no element
matches the id, it issues no scroll invocation (and, being a total
function, does not throw). -/
theorem hash_link_click_spec :
    ∀ (d : Dom) (href : String) (t : Nat),
      (getElementById d (href.drop 1) = some t →
          hashLinkClick d href =
            { defaultPrevented := true, scrolls := [(t, "smooth", "start")] }) ∧
      (getElementById d (href.drop 1) = none →
          hashLinkClick d href = { defaultPrevented := true, scrolls := [] }) := by
  intro d href t
  constructor
  · intro h
    simp [hashLinkClick, h]
  · intro h
    simp [hashLinkClick, h]

/-- Witness for hash_link_click_spec: clicking "#contact" in exDom5 scrolls
to node 3; clicking "#missing" scrolls nowhere. -/
theorem hash_link_click_spec_witness :
    hashLinkClick exDom5 "#contact" =
      { defaultPrevented := true, scrolls := [(3, "smooth", "start")] } ∧
    hashLinkClick exDom5 "#missing" = { defaultPrevented := true, scrolls := [] } :=
  ⟨(hash_link_click_spec exDom5 "#contact" 3).1 (by decide),
   (hash_link_click_spec exDom5 "#missing" 0).2 (by decide)⟩

/-- C10: the click handler calls e.preventDefault() before the
target-existence check, so the default navigation jump is suppressed for
every click on a hash link — also when no element carries the referenced
id, including the bare href "#"; the existence check guards only the
scroll invocation. -/
theorem prevent_default_unconditional :
    ∀ (d : Dom) (href : String), (hashLinkClick d href).defaultPrevented = true := by
  intro d href
  cases hq : getElementById d (href.drop 1) <;> simp [hashLinkClick, hq]

/-- C7 (amended): pointer-leave writes the fixed resting values
(transform "translateY(0)", boxShadow "none") rather than restoring the
styles found before pointer-enter; the enter–leave cycle touches no other
element and is the identity exactly on blocks that already carried the
resting values — in particular, after one cycle every further cycle
changes nothing. -/
theorem hover_cycle_resting_style :
    ∀ (d : Dom) (n : Nat),
      ((mouseleaveServiceBlock (mouseenterServiceBlock d n) n).elems n).transform =
          "translateY(0)" ∧
      ((mouseleaveServiceBlock (mouseenterServiceBlock d n) n).elems n).boxShadow = "none" ∧
      (∀ m, m ≠ n →
        (mouseleaveServiceBlock (mouseenterServiceBlock d n) n).elems m = d.elems m) ∧
      ((d.elems n).transform = "translateY(0)" → (d.elems n).boxShadow = "none" →
        ∀ m, (mouseleaveServiceBlock (mouseenterServiceBlock d n) n).elems m = d.elems m) := by
  intro d n
  refine ⟨?_, ?_, ?_, ?_⟩
  · simp [mouseleaveServiceBlock, mouseenterServiceBlock, setElem]
  · simp [mouseleaveServiceBlock, mouseenterServiceBlock, setElem]
  · intro m hm
    simp [mouseleaveServiceBlock, mouseenterServiceBlock, setElem, hm]
  · intro h1 h2 m
    by_cases hm : m = n
    · subst hm
      simp only [mouseleaveServiceBlock, mouseenterServiceBlock, setElem, if_pos]
      rw [← h1, ← h2]
    · simp [mouseleaveServiceBlock, mouseenterServiceBlock, setElem, hm]

/-- Witness for hover_cycle_resting_style: node 2 of exDom7 already rests,
so the cycle leaves its record unchanged. -/
theorem hover_cycle_resting_style_witness :
    (mouseleaveServiceBlock (mouseenterServiceBlock exDom7 2) 2).elems 2 = exDom7.elems 2 :=
  (hover_cycle_resting_style exDom7 2).2.2.2 (by decide) (by decide) 2

/-- Counterexample to C7 as stated: node 3 of cexDom7 starts with an empty
inline transform; after pointer-enter then pointer-leave, its transform is
"translateY(0)" ≠ "", so the cycle did not restore the value found before
pointer-enter. -/
theorem hover_cycle_not_identity_cex :
    ((mouseleaveServiceBlock (mouseenterServiceBlock cexDom7 3) 3).elems 3).transform ≠
      (cexDom7.elems 3).transform := by decide

/-- querySelector ignores the body's class list. -/
theorem querySelector_update_bodyClasses (d : Dom) (b : List String) (c : String) :
    querySelector { d with bodyClasses := b } c = querySelector d c := rfl

/-- C8: on window load the body receives the marker class "loaded"; when a
loader element is found, its opacity is set to "0" in the synchronous
step and its display to "none" in the 300ms deferred step; when no loader
element exists, no element record changes — only the body class is
added. -/
theorem window_load_spec :
    ∀ (d : Dom),
      "loaded" ∈ (windowLoad d).1.bodyClasses ∧
      (∀ l, querySelector d "loader" = some l →
        ((windowLoad d).1.elems l).opacity = "0" ∧
          ((windowLoad d).2.elems l).display = "none") ∧
      (querySelector d "loader" = none →
        (windowLoad d).1.elems = d.elems ∧ (windowLoad d).2 = (windowLoad d).1) := by
  intro d
  refine ⟨?_, ?_, ?_⟩
  · cases hq : querySelector d "loader" with
    | none =>
      simp only [windowLoad, querySelector_update_bodyClasses, hq]
      by_cases hb : "loaded" ∈ d.bodyClasses <;> simp [hb]
    | some l =>
      simp only [windowLoad, querySelector_update_bodyClasses, hq]
      by_cases hb : "loaded" ∈ d.bodyClasses <;> simp [setElem, hb]
  · intro l hl
    simp only [windowLoad, querySelector_update_bodyClasses, hl]
    constructor <;> simp [setElem]
  · intro hq
    simp [windowLoad, querySelector_update_bodyClasses, hq]

/-- Witness for window_load_spec: exDom8 has a loader (node 4); its opacity
is "0" at once and its display "none" after the deferred step. -/
theorem window_load_spec_witness :
    ((windowLoad exDom8).1.elems 4).opacity = "0" ∧
      ((windowLoad exDom8).2.elems 4).display = "none" :=
  (window_load_spec exDom8).2.1 4 (by decide)

/-- A pending throttle timer with deadline c + wait behaves like the
expected trailing-edge fires of the call list with c prepended. -/
theorem runThrottle_pending (wait : Nat) (cs : List Nat) : ∀ c : Nat,
    runThrottle wait cs (some (c + wait)) = expectedFires wait (c :: cs) := by
  induction cs with
  | nil => intro c; rfl
  | cons c2 rest ih =>
    intro c
    simp only [runThrottle, expectedFires]
    by_cases h : c + wait ≤ c2
    · simp [h, ih c2]
    · simp [h, ih c2]

/-- C9: the resize handler is a trailing-edge throttle with a 250ms
interval — each incoming call resets the pending timer, and over any call
sequence the wrapped action's execution times are exactly c + 250 for the
calls c after which no further call arrives before the deadline: one
execution per burst, only once activity has paused for the interval. -/
theorem resize_throttle_trailing_edge :
    resizeWait = 250 ∧
    ∀ (cs : List Nat), runThrottle resizeWait cs none = expectedFires resizeWait cs := by
  refine ⟨rfl, ?_⟩
  intro cs
  cases cs with
  | nil => rfl
  | cons c rest =>
    simpa only [runThrottle] using runThrottle_pending resizeWait rest c

end ScrollScript
